import Mathlib

/-!
Shallow embedding of the unified broker-integration layer of the
copytrader backend (src/services/brokerIntegrations): the base broker's
rate limiter and error classifier, the four exchange connectors
(Delta, Binance-Futures, Bybit, OKX) and the broker factory registry.

Modelling conventions:
* Numeric JSON fields that the source obtains via `parseFloat` on
  well-formed decimal strings are modelled directly as rationals (ℚ).
* A JavaScript number produced by dividing by zero is non-finite
  (Infinity/NaN); divisions that the source performs without a guard are
  modelled with `jsDiv`, which returns `none` exactly when the divisor
  is zero.
* Thrown `Error` objects are modelled by their message string; an
  operation that can throw returns `Except String α`.
* The mutable per-instance rate-limiter `Map` is modelled as an
  association list threaded through each operation, together with the
  current clock value `now` (`Date.now()`).
* The outcome of an awaited REST call is an explicit input
  (`ApiResult`): either the parsed response body or the transport/HTTP
  error cause that the axios interceptor would hand to `handleError`.
-/

set_option linter.unusedVariables false

/-- Decimal digit character, as produced by JavaScript number-to-string
conversion of a nonnegative integer (code points 48..57). -/
def digitChar (d : Nat) : Char := Char.ofNat (48 + d)

/-- Fuelled decimal-digit expansion of a natural number (most significant
digit first).  The fuel argument only makes the recursion structural;
`natRepr` always supplies enough fuel. -/
def natDigitsF : Nat → Nat → List Char
  | 0, _ => []
  | fuel + 1, n => if n < 10 then [digitChar n] else natDigitsF fuel (n / 10) ++ [digitChar (n % 10)]

/-- Decimal string of a natural number, modelling the JavaScript template
interpolation of the nonnegative integer `Math.floor(now / windowMs)`. -/
def natRepr (n : Nat) : String := ⟨natDigitsF (n + 1) n⟩

/-- Value of a list of decimal digit characters (most significant first). -/
def digitsVal (l : List Char) : Nat := l.foldl (fun acc c => acc * 10 + (c.toNat - 48)) 0

/-- Model of JavaScript `parseInt` restricted to the strings arising in
this code base: the longest leading run of decimal digits is parsed;
`none` models the `NaN` result when there is no leading digit. -/
def jsParseInt (s : String) : Option Nat :=
  let ds := s.data.takeWhile Char.isDigit
  if ds.isEmpty then none else some (digitsVal ds)

/-- Auxiliary splitter: JavaScript `String.prototype.split` with a
single-character separator, over the character list, with an accumulator
for the current (reversed) segment. -/
def jsSplitAux (c : Char) : List Char → List Char → List (List Char)
  | [], acc => [acc.reverse]
  | a :: t, acc => if a = c then acc.reverse :: jsSplitAux c t [] else jsSplitAux c t (a :: acc)

/-- Model of JavaScript `s.split(c)` for a single-character separator. -/
def jsSplit (c : Char) (s : String) : List String := (jsSplitAux c s.data []).map fun l => ⟨l⟩

/-- Model of JavaScript `toLowerCase` on the ASCII strings used by the
status vocabularies (uppercase ASCII letters are lowered). -/
def jsCharToLower (c : Char) : Char :=
  if 65 ≤ c.toNat ∧ c.toNat ≤ 90 then Char.ofNat (c.toNat + 32) else c

/-- Model of JavaScript `s.toLowerCase()` for ASCII strings. -/
def jsToLower (s : String) : String := ⟨s.data.map jsCharToLower⟩

/-- Model of JavaScript division where a zero divisor yields a
non-finite number (Infinity or NaN), encoded as `none`. -/
def jsDiv (a b : ℚ) : Option ℚ := if b = 0 then none else some (a / b)

/-- The per-connector rate limiter `Map<string, number>` as an
insertion-ordered association list. -/
abbrev RLMap : Type := List (String × Nat)

namespace BaseBroker

/-- Model of `this.rateLimiter.get(key)`. -/
def rlGet : RLMap → String → Option Nat
  | [], _ => none
  | (k, v) :: t, key => if k = key then some v else rlGet t key

/-- Model of `this.rateLimiter.set(key, value)`: updates in place when the
key is present, appends otherwise (JavaScript `Map` insertion order). -/
def rlSet : RLMap → String → Nat → RLMap
  | [], key, val => [(key, val)]
  | (k, v) :: t, key, val => if k = key then (key, val) :: t else (k, v) :: rlSet t key val

/-- Model of the stale-entry test in `checkRateLimit`'s cleanup loop:
`k.split('_')[1] && parseInt(k.split('_')[1]) < Math.floor((now - windowMs) / windowMs)`.
A missing or empty second segment is falsy and a `NaN` parse compares
false, so both keep the entry.  The subtraction and floor are over the
integers, as in JavaScript arithmetic. -/
def isStaleKey (now windowMs : Nat) (k : String) : Bool :=
  match (jsSplit '_' k).get? 1 with
  | none => false
  | some seg =>
    if seg.data.isEmpty then false
    else
      match jsParseInt seg with
      | none => false
      | some n => decide ((n : Int) < Int.fdiv ((now : Int) - (windowMs : Int)) (windowMs : Int))

/-- Model of `BaseBroker.checkRateLimit(endpoint, limit, windowMs)`
(src/services/brokerIntegrations/baseBroker.ts lines 79-99).  The map
and the clock are explicit; the returned pair is (admitted?, new map).
A denied call returns early, before the increment and the cleanup loop;
an admitted call increments the current window's counter and then
deletes every entry the stale test selects (deleting during `Map`
iteration removes exactly those entries). -/
def checkRateLimit (rl : RLMap) (now : Nat) (endpoint : String) (limit windowMs : Nat) : Bool × RLMap :=
  if limit ≤ (rlGet rl (endpoint ++ "_" ++ natRepr (now / windowMs))).getD 0 then
    (false, rl)
  else
    (true,
      (rlSet rl (endpoint ++ "_" ++ natRepr (now / windowMs))
        ((rlGet rl (endpoint ++ "_" ++ natRepr (now / windowMs))).getD 0 + 1)).filter
        fun kv => !isStaleKey now windowMs kv.1)

end BaseBroker

/-- Normalized order status union `'pending' | 'filled' | 'cancelled' | 'rejected'`. -/
inductive OrderStatus
  | pending
  | filled
  | cancelled
  | rejected
deriving DecidableEq, Repr

/-- Broker credentials (`BrokerCredentials` in baseBroker.ts). -/
structure BrokerCredentials where
  apiKey : String
  apiSecret : String
  passphrase : Option String := none
  sandbox : Option Bool := none
deriving DecidableEq, Repr

/-- Unified order input (`TradeOrder` in baseBroker.ts). -/
structure TradeOrder where
  symbol : String
  side : String
  type : String
  quantity : ℚ
  price : Option ℚ := none
  stopPrice : Option ℚ := none
  timeInForce : Option String := none
deriving DecidableEq, Repr

/-- Unified order result (`TradeResult` in baseBroker.ts); the timestamp
is the underlying millisecond value of the `Date`. -/
structure TradeResult where
  orderId : String
  symbol : String
  side : String
  quantity : ℚ
  price : ℚ
  status : OrderStatus
  timestamp : Nat
  fees : Option ℚ := none
deriving DecidableEq, Repr

/-- Unified balance row (`AccountBalance` in baseBroker.ts). -/
structure AccountBalance where
  asset : String
  free : ℚ
  locked : ℚ
  total : ℚ
deriving DecidableEq, Repr

/-- Unified position (`Position` in baseBroker.ts).  `percentage` is a
JavaScript number; `none` encodes a non-finite value (the result of a
division by zero). -/
structure Position where
  symbol : String
  side : String
  size : ℚ
  entryPrice : ℚ
  markPrice : ℚ
  pnl : ℚ
  percentage : Option ℚ
deriving DecidableEq, Repr

/-- Transport-level cause of a failed REST call, as seen by
`BaseBroker.handleError`: an HTTP error response (status and the axios
error message), a refused connection, a timeout, or a plain thrown
`Error` carrying only a message. -/
inductive ErrCause
  | http (status : Nat) (msg : String)
  | econnrefused
  | etimedout
  | jsError (msg : String)
deriving DecidableEq, Repr

namespace BaseBroker

/-- Model of `BaseBroker.handleError` (baseBroker.ts lines 102-118),
returning the message of the classified `Error`: 401 → invalid
credentials, 429 → rate limited, ≥500 → service unavailable,
ECONNREFUSED, ETIMEDOUT, otherwise the original message (or the unknown
fallback when the message is empty/absent). -/
def handleError : ErrCause → String
  | .http s m =>
    if s = 401 then "Invalid API credentials"
    else if s = 429 then "Rate limit exceeded"
    else if 500 ≤ s then "Broker service unavailable"
    else if m = "" then "Unknown broker error" else m
  | .econnrefused => "Connection refused by broker"
  | .etimedout => "Request timeout"
  | .jsError m => if m = "" then "Unknown broker error" else m

end BaseBroker

/-- Outcome of an awaited REST call through the connector's axios
client: the parsed response body, or the error cause that the response
interceptor passes to `handleError` before rethrowing. -/
inductive ApiResult (α : Type)
  | success (response : α)
  | failure (cause : ErrCause)
deriving DecidableEq, Repr

/-- Outcome of the `connectWebSocket()` handshake promise: the `open`
event fired (resolve), or an `error` event with the given message fired
first (reject). -/
inductive WsOutcome
  | opened
  | failed (msg : String)
deriving DecidableEq, Repr

/-- Model of the JavaScript string fallback `a || b`: `b` when `a` is
absent or empty (falsy), otherwise `a`. -/
def jsOrElse (a : Option String) (b : String) : String :=
  match a with
  | some m => if m = "" then b else m
  | none => b

/-- Model of `parseFloat(a || b || '0')` where `a` and `b` are optional
numeric string fields: the first present field wins, defaulting to 0. -/
def jsNumOr (a b : Option ℚ) : ℚ :=
  match a with
  | some x => x
  | none => match b with
    | some y => y
    | none => 0

namespace DeltaExchangeBroker

/-- Relevant part of the `/v2/profile` response used by
`DeltaExchangeBroker.validateCredentials`: the HTTP status and the
body's `success` flag. -/
structure ProfileResp where
  status : Nat
  success : Bool
deriving DecidableEq, Repr

/-- Model of `DeltaExchangeBroker.validateCredentials` (brokerFactory.ts
bundle, deltaExchange.ts lines 256-268).  The whole body sits in a
`try`/`catch` whose catch returns `false`, so the self-thrown rate-limit
error and every error rethrown by the response interceptor alike become
the boolean `false`. -/
def validateCredentials (rl : RLMap) (now : Nat) (api : ApiResult ProfileResp) : Bool × RLMap :=
  let (ok, rl1) := BaseBroker.checkRateLimit rl now "validate" 10 60000
  if !ok then (false, rl1)
  else
    match api with
    | .success r => (r.status == 200 && r.success, rl1)
    | .failure _ => (false, rl1)

/-- Model of `DeltaExchangeBroker.connect` (deltaExchange.ts lines
236-245): awaits `validateCredentials` (discarding its boolean result),
then the WebSocket handshake; only then sets `isConnected = true`.  The
returned triple is (thrown error or unit, final `isConnected`, rate
limiter). -/
def connect (rl : RLMap) (now : Nat) (api : ApiResult ProfileResp) (ws : WsOutcome) :
    Except String Unit × Bool × RLMap :=
  let (valid, rl1) := validateCredentials rl now api
  match ws with
  | .opened => (.ok (), true, rl1)
  | .failed m => (.error (BaseBroker.handleError (.jsError m)), false, rl1)

/-- One row of the `/v2/wallet/balances` result. -/
structure BalanceRow where
  asset_symbol : String
  available_balance : ℚ
  order_margin : ℚ
  wallet_balance : ℚ
deriving DecidableEq, Repr

/-- Body of the `/v2/wallet/balances` response. -/
structure BalancesResp where
  success : Bool
  result : List BalanceRow
deriving DecidableEq, Repr

/-- Model of `DeltaExchangeBroker.getAccountBalance` (deltaExchange.ts
lines 270-291): maps every result row through unchanged — `free` from
`available_balance`, `locked` from `order_margin`, `total` from
`wallet_balance` — with no zero-balance filter and no derived sum. -/
def getAccountBalance (rl : RLMap) (now : Nat) (api : ApiResult BalancesResp) :
    Except String (List AccountBalance) × RLMap :=
  let (ok, rl1) := BaseBroker.checkRateLimit rl now "balance" 10 60000
  if !ok then (.error (BaseBroker.handleError (.jsError "Rate limit exceeded")), rl1)
  else
    match api with
    | .failure c =>
      (.error (BaseBroker.handleError (.jsError (BaseBroker.handleError c))), rl1)
    | .success r =>
      if !r.success then (.error (BaseBroker.handleError (.jsError "Failed to fetch balance")), rl1)
      else
        (.ok (r.result.map fun b =>
          { asset := b.asset_symbol
            free := b.available_balance
            locked := b.order_margin
            total := b.wallet_balance }), rl1)

/-- Model of `DeltaExchangeBroker.mapOrderStatus` (deltaExchange.ts lines
516-531): lowercases the native state, then matches the documented
vocabulary, defaulting to `pending`. -/
def mapOrderStatus (state : String) : OrderStatus :=
  let t := jsToLower state
  if t = "open" ∨ t = "pending" then .pending
  else if t = "filled" ∨ t = "closed" then .filled
  else if t = "cancelled" then .cancelled
  else if t = "rejected" then .rejected
  else .pending

/-- Order object inside a successful `/v2/orders` acknowledgment.
`created_at` is the millisecond value of the parsed date. -/
structure OrderResult where
  id : Nat
  size : ℚ
  limit_price : Option ℚ := none
  average_fill_price : Option ℚ := none
  state : String
  created_at : Nat
  commission : Option ℚ := none
deriving DecidableEq, Repr

/-- Body of the `/v2/orders` acknowledgment response. -/
structure OrderResp where
  success : Bool
  errorMsg : Option String := none
  result : OrderResult
deriving DecidableEq, Repr

/-- Model of the response-normalization part of
`DeltaExchangeBroker.placeOrder` (deltaExchange.ts lines 321-357); the
construction of the exchange-native request parameters does not affect
the returned `TradeResult` and is not modelled. -/
def placeOrder (rl : RLMap) (now : Nat) (order : TradeOrder) (api : ApiResult OrderResp) :
    Except String TradeResult × RLMap :=
  let (ok, rl1) := BaseBroker.checkRateLimit rl now "order" 20 60000
  if !ok then (.error (BaseBroker.handleError (.jsError "Rate limit exceeded")), rl1)
  else
    match api with
    | .failure c =>
      (.error (BaseBroker.handleError (.jsError (BaseBroker.handleError c))), rl1)
    | .success r =>
      if !r.success then
        (.error (BaseBroker.handleError (.jsError (jsOrElse r.errorMsg "Order placement failed"))), rl1)
      else
        (.ok
          { orderId := natRepr r.result.id
            symbol := order.symbol
            side := order.side
            quantity := r.result.size
            price := jsNumOr r.result.limit_price r.result.average_fill_price
            status := mapOrderStatus r.result.state
            timestamp := r.result.created_at
            fees := some (r.result.commission.getD 0) }, rl1)

end DeltaExchangeBroker

namespace BinanceFuturesBroker

/-- Relevant part of the `/fapi/v2/account` response used by
`BinanceFuturesBroker.validateCredentials`. -/
structure AccountResp where
  status : Nat
  canTrade : Bool
deriving DecidableEq, Repr

/-- Model of `BinanceFuturesBroker.validateCredentials` (binanceFutures.ts
lines 76-88): the catch-all converts every failure — auth, transport, or
the self-thrown rate-limit error — into `false`. -/
def validateCredentials (rl : RLMap) (now : Nat) (api : ApiResult AccountResp) : Bool × RLMap :=
  let (ok, rl1) := BaseBroker.checkRateLimit rl now "validate" 10 60000
  if !ok then (false, rl1)
  else
    match api with
    | .success r => (r.status == 200 && r.canTrade, rl1)
    | .failure _ => (false, rl1)

/-- Model of `BinanceFuturesBroker.connect` (binanceFutures.ts lines
56-65): the boolean from `validateCredentials` is discarded. -/
def connect (rl : RLMap) (now : Nat) (api : ApiResult AccountResp) (ws : WsOutcome) :
    Except String Unit × Bool × RLMap :=
  let (valid, rl1) := validateCredentials rl now api
  match ws with
  | .opened => (.ok (), true, rl1)
  | .failed m => (.error (BaseBroker.handleError (.jsError m)), false, rl1)

/-- One row of the `/fapi/v2/balance` response. -/
structure BalanceRow where
  asset : String
  balance : ℚ
  availableBalance : ℚ
deriving DecidableEq, Repr

/-- Model of `BinanceFuturesBroker.getAccountBalance` (binanceFutures.ts
lines 90-109): keeps rows with a positive native balance and derives
`locked` as `balance - availableBalance`. -/
def getAccountBalance (rl : RLMap) (now : Nat) (api : ApiResult (List BalanceRow)) :
    Except String (List AccountBalance) × RLMap :=
  let (ok, rl1) := BaseBroker.checkRateLimit rl now "balance" 10 60000
  if !ok then (.error (BaseBroker.handleError (.jsError "Rate limit exceeded")), rl1)
  else
    match api with
    | .failure c =>
      (.error (BaseBroker.handleError (.jsError (BaseBroker.handleError c))), rl1)
    | .success rows =>
      (.ok ((rows.filter fun b => decide (0 < b.balance)).map fun b =>
        { asset := b.asset
          free := b.availableBalance
          locked := b.balance - b.availableBalance
          total := b.balance }), rl1)

/-- Model of `BinanceFuturesBroker.mapOrderStatus` (binanceFutures.ts
lines 298-313). -/
def mapOrderStatus (status : String) : OrderStatus :=
  if status = "NEW" ∨ status = "PARTIALLY_FILLED" then .pending
  else if status = "FILLED" then .filled
  else if status = "CANCELED" ∨ status = "EXPIRED" then .cancelled
  else if status = "REJECTED" then .rejected
  else .pending

/-- Acknowledgment body of `POST /fapi/v1/order`. -/
structure OrderResp where
  orderId : Nat
  symbol : String
  side : String
  origQty : ℚ
  price : Option ℚ := none
  avgPrice : Option ℚ := none
  status : String
  updateTime : Nat
deriving DecidableEq, Repr

/-- Model of the response-normalization part of
`BinanceFuturesBroker.placeOrder` (binanceFutures.ts lines 135-172): the
returned status is `mapOrderStatus` applied to the native `status` field
of the synchronous acknowledgment, and fees are hard-coded to 0. -/
def placeOrder (rl : RLMap) (now : Nat) (order : TradeOrder) (api : ApiResult OrderResp) :
    Except String TradeResult × RLMap :=
  let (ok, rl1) := BaseBroker.checkRateLimit rl now "order" 20 60000
  if !ok then (.error (BaseBroker.handleError (.jsError "Rate limit exceeded")), rl1)
  else
    match api with
    | .failure c =>
      (.error (BaseBroker.handleError (.jsError (BaseBroker.handleError c))), rl1)
    | .success r =>
      (.ok
        { orderId := natRepr r.orderId
          symbol := r.symbol
          side := jsToLower r.side
          quantity := r.origQty
          price := jsNumOr r.price r.avgPrice
          status := mapOrderStatus r.status
          timestamp := r.updateTime
          fees := some 0 }, rl1)

end BinanceFuturesBroker

namespace BybitBroker

/-- Relevant part of the `/v5/account/info` response used by
`BybitBroker.validateCredentials`. -/
structure AccountInfoResp where
  retCode : Int
deriving DecidableEq, Repr

/-- Model of `BybitBroker.validateCredentials` (bybit.ts lines 85-97):
the catch-all converts every failure into `false`. -/
def validateCredentials (rl : RLMap) (now : Nat) (api : ApiResult AccountInfoResp) : Bool × RLMap :=
  let (ok, rl1) := BaseBroker.checkRateLimit rl now "validate" 10 60000
  if !ok then (false, rl1)
  else
    match api with
    | .success r => (r.retCode == 0, rl1)
    | .failure _ => (false, rl1)

/-- Model of `BybitBroker.connect` (bybit.ts lines 65-74): the boolean
from `validateCredentials` is discarded. -/
def connect (rl : RLMap) (now : Nat) (api : ApiResult AccountInfoResp) (ws : WsOutcome) :
    Except String Unit × Bool × RLMap :=
  let (valid, rl1) := validateCredentials rl now api
  match ws with
  | .opened => (.ok (), true, rl1)
  | .failed m => (.error (BaseBroker.handleError (.jsError m)), false, rl1)

/-- One coin entry of the unified wallet-balance response. -/
structure CoinRow where
  coin : String
  availableToWithdraw : ℚ
  walletBalance : ℚ
deriving DecidableEq, Repr

/-- One account entry of the unified wallet-balance response. -/
structure AccountRow where
  coin : List CoinRow
deriving DecidableEq, Repr

/-- Body of the `/v5/account/wallet-balance` response. -/
structure BalancesResp where
  retCode : Int
  list : List AccountRow
deriving DecidableEq, Repr

/-- Model of `BybitBroker.getAccountBalance` (bybit.ts lines 99-131):
for each account, pushes every coin with positive `walletBalance`,
deriving `locked` as `walletBalance - availableToWithdraw`. -/
def getAccountBalance (rl : RLMap) (now : Nat) (api : ApiResult BalancesResp) :
    Except String (List AccountBalance) × RLMap :=
  let (ok, rl1) := BaseBroker.checkRateLimit rl now "balance" 10 60000
  if !ok then (.error (BaseBroker.handleError (.jsError "Rate limit exceeded")), rl1)
  else
    match api with
    | .failure c =>
      (.error (BaseBroker.handleError (.jsError (BaseBroker.handleError c))), rl1)
    | .success r =>
      if r.retCode != 0 then
        (.error (BaseBroker.handleError (.jsError "Failed to fetch balance")), rl1)
      else
        let rows := r.list.map fun account =>
          (account.coin.filter fun c => decide (0 < c.walletBalance)).map fun c =>
            { asset := c.coin
              free := c.availableToWithdraw
              locked := c.walletBalance - c.availableToWithdraw
              total := c.walletBalance : AccountBalance }
        (.ok rows.flatten, rl1)

/-- One row of the `/v5/position/list` response. -/
structure PositionRow where
  symbol : String
  side : String
  size : ℚ
  avgPrice : ℚ
  markPrice : ℚ
  unrealisedPnl : ℚ
  positionValue : ℚ
deriving DecidableEq, Repr

/-- Body of the `/v5/position/list` response. -/
structure PositionsResp where
  retCode : Int
  list : List PositionRow
deriving DecidableEq, Repr

/-- Model of `BybitBroker.getPositions` (bybit.ts lines 133-161): keeps
rows with nonzero `size` and computes `percentage` as
`unrealisedPnl / positionValue * 100` with no guard on the divisor, so a
zero `positionValue` divides by zero (non-finite result, `none`). -/
def getPositions (rl : RLMap) (now : Nat) (api : ApiResult PositionsResp) :
    Except String (List Position) × RLMap :=
  let (ok, rl1) := BaseBroker.checkRateLimit rl now "positions" 10 60000
  if !ok then (.error (BaseBroker.handleError (.jsError "Rate limit exceeded")), rl1)
  else
    match api with
    | .failure c =>
      (.error (BaseBroker.handleError (.jsError (BaseBroker.handleError c))), rl1)
    | .success r =>
      if r.retCode != 0 then
        (.error (BaseBroker.handleError (.jsError "Failed to fetch positions")), rl1)
      else
        (.ok ((r.list.filter fun p => p.size != 0).map fun p =>
          { symbol := p.symbol
            side := jsToLower p.side
            size := p.size
            entryPrice := p.avgPrice
            markPrice := p.markPrice
            pnl := p.unrealisedPnl
            percentage := (jsDiv p.unrealisedPnl p.positionValue).map fun q => q * 100 }), rl1)

/-- Acknowledgment body of `POST /v5/order/create`.  `orderStatus` is the
native status carried alongside the acknowledgment; the source never
reads it. -/
structure OrderResp where
  retCode : Int
  retMsg : String
  orderId : String
  orderStatus : String
deriving DecidableEq, Repr

/-- Model of the response-normalization part of `BybitBroker.placeOrder`
(bybit.ts lines 163-206): on a successful acknowledgment the returned
status is the hard-coded literal `'pending'` — the acknowledgment's
native status is never consulted — and fees are hard-coded to 0. -/
def placeOrder (rl : RLMap) (now : Nat) (order : TradeOrder) (api : ApiResult OrderResp) :
    Except String TradeResult × RLMap :=
  let (ok, rl1) := BaseBroker.checkRateLimit rl now "order" 20 60000
  if !ok then (.error (BaseBroker.handleError (.jsError "Rate limit exceeded")), rl1)
  else
    match api with
    | .failure c =>
      (.error (BaseBroker.handleError (.jsError (BaseBroker.handleError c))), rl1)
    | .success r =>
      if r.retCode != 0 then
        (.error (BaseBroker.handleError (.jsError (jsOrElse (some r.retMsg) "Order placement failed"))), rl1)
      else
        (.ok
          { orderId := r.orderId
            symbol := order.symbol
            side := order.side
            quantity := order.quantity
            price := order.price.getD 0
            status := .pending
            timestamp := now
            fees := some 0 }, rl1)

/-- Model of `BybitBroker.mapOrderStatus` (bybit.ts lines 332-347). -/
def mapOrderStatus (status : String) : OrderStatus :=
  if status = "New" ∨ status = "PartiallyFilled" then .pending
  else if status = "Filled" then .filled
  else if status = "Cancelled" ∨ status = "Rejected" then .cancelled
  else if status = "Deactivated" then .rejected
  else .pending

end BybitBroker

namespace OKXBroker

/-- Relevant part of the `/api/v5/account/config` response used by
`OKXBroker.validateCredentials`. -/
structure ConfigResp where
  code : String
deriving DecidableEq, Repr

/-- Model of `OKXBroker.validateCredentials` (okx.ts lines 78-90): the
catch-all converts every failure into `false`. -/
def validateCredentials (rl : RLMap) (now : Nat) (api : ApiResult ConfigResp) : Bool × RLMap :=
  let (ok, rl1) := BaseBroker.checkRateLimit rl now "validate" 10 60000
  if !ok then (false, rl1)
  else
    match api with
    | .success r => (r.code == "0", rl1)
    | .failure _ => (false, rl1)

/-- Model of `OKXBroker.connect` (okx.ts lines 58-67): the boolean from
`validateCredentials` is discarded. -/
def connect (rl : RLMap) (now : Nat) (api : ApiResult ConfigResp) (ws : WsOutcome) :
    Except String Unit × Bool × RLMap :=
  let (valid, rl1) := validateCredentials rl now api
  match ws with
  | .opened => (.ok (), true, rl1)
  | .failed m => (.error (BaseBroker.handleError (.jsError m)), false, rl1)

/-- One currency detail of the `/api/v5/account/balance` response. -/
structure DetailRow where
  ccy : String
  availBal : ℚ
  bal : ℚ
deriving DecidableEq, Repr

/-- One account entry of the `/api/v5/account/balance` response. -/
structure AccountRow where
  details : List DetailRow
deriving DecidableEq, Repr

/-- Body of the `/api/v5/account/balance` response. -/
structure BalancesResp where
  code : String
  data : List AccountRow
deriving DecidableEq, Repr

/-- Model of `OKXBroker.getAccountBalance` (okx.ts lines 92-122): for
each account, pushes every detail with positive `bal`, deriving `locked`
as `bal - availBal`. -/
def getAccountBalance (rl : RLMap) (now : Nat) (api : ApiResult BalancesResp) :
    Except String (List AccountBalance) × RLMap :=
  let (ok, rl1) := BaseBroker.checkRateLimit rl now "balance" 10 60000
  if !ok then (.error (BaseBroker.handleError (.jsError "Rate limit exceeded")), rl1)
  else
    match api with
    | .failure c =>
      (.error (BaseBroker.handleError (.jsError (BaseBroker.handleError c))), rl1)
    | .success r =>
      if r.code != "0" then
        (.error (BaseBroker.handleError (.jsError "Failed to fetch balance")), rl1)
      else
        let rows := r.data.map fun account =>
          (account.details.filter fun d => decide (0 < d.bal)).map fun d =>
            { asset := d.ccy
              free := d.availBal
              locked := d.bal - d.availBal
              total := d.bal : AccountBalance }
        (.ok rows.flatten, rl1)

/-- Model of `OKXBroker.mapOrderStatus` (okx.ts lines 325-339). -/
def mapOrderStatus (state : String) : OrderStatus :=
  if state = "live" ∨ state = "partially_filled" then .pending
  else if state = "filled" then .filled
  else if state = "canceled" then .cancelled
  else if state = "rejected" then .rejected
  else .pending

/-- Acknowledgment body of `POST /api/v5/trade/order`.  `sCode` is the
per-order result code of the placement (the string `"0"` on success);
it is not an order state. -/
structure OrderResp where
  code : String
  msg : String
  ordId : String
  sCode : String
deriving DecidableEq, Repr

/-- Model of the response-normalization part of `OKXBroker.placeOrder`
(okx.ts lines 152-194): the returned status is `mapOrderStatus` applied
to the acknowledgment's `sCode` result code — not to an order state —
and fees are hard-coded to 0. -/
def placeOrder (rl : RLMap) (now : Nat) (order : TradeOrder) (api : ApiResult OrderResp) :
    Except String TradeResult × RLMap :=
  let (ok, rl1) := BaseBroker.checkRateLimit rl now "order" 20 60000
  if !ok then (.error (BaseBroker.handleError (.jsError "Rate limit exceeded")), rl1)
  else
    match api with
    | .failure c =>
      (.error (BaseBroker.handleError (.jsError (BaseBroker.handleError c))), rl1)
    | .success r =>
      if r.code != "0" then
        (.error (BaseBroker.handleError (.jsError (jsOrElse (some r.msg) "Order placement failed"))), rl1)
      else
        (.ok
          { orderId := r.ordId
            symbol := order.symbol
            side := order.side
            quantity := order.quantity
            price := order.price.getD 0
            status := mapOrderStatus r.sCode
            timestamp := now
            fees := some 0 }, rl1)

end OKXBroker

/-- Supported broker union (`SupportedBroker` in brokerFactory.ts). -/
inductive SupportedBroker
  | DELTA
  | BINANCE
  | BYBIT
  | OKX
deriving DecidableEq, Repr

/-- A constructed connector object: the allocation id models the
JavaScript object reference (two `new` expressions yield distinct ids),
together with the constructor arguments it was created with. -/
structure BrokerInstance where
  id : Nat
  brokerType : SupportedBroker
  credentials : BrokerCredentials
deriving DecidableEq, Repr

namespace BrokerFactory

/-- The registry's static state: the `instances` map (insertion-ordered
association list) and the allocator for fresh object ids. -/
structure Registry where
  instances : List (String × BrokerInstance)
  nextId : Nat
deriving DecidableEq, Repr

/-- Model of `BrokerFactory.instances.get(key)`. -/
def findInstance : List (String × BrokerInstance) → String → Option BrokerInstance
  | [], _ => none
  | (k, b) :: t, key => if k = key then some b else findInstance t key

/-- Cache key used by `BrokerFactory.createBroker` (brokerFactory.ts line
18): the caller-supplied instance id, or the broker type joined with the
first 8 characters of the API key. -/
def cacheKey (brokerType : SupportedBroker) (credentials : BrokerCredentials)
    (instanceId : Option String) : String :=
  match instanceId with
  | some i => i
  | none =>
    (match brokerType with
     | .DELTA => "DELTA"
     | .BINANCE => "BINANCE"
     | .BYBIT => "BYBIT"
     | .OKX => "OKX") ++ "_" ++ credentials.apiKey.take 8

/-- Model of `BrokerFactory.createBroker` (brokerFactory.ts lines 13-59):
returns the cached instance for the key when present; otherwise
constructs a fresh connector bound to the supplied credentials, stores
it under the key, and returns it. -/
def createBroker (st : Registry) (brokerType : SupportedBroker)
    (credentials : BrokerCredentials) (instanceId : Option String) :
    BrokerInstance × Registry :=
  match findInstance st.instances (cacheKey brokerType credentials instanceId) with
  | some b => (b, st)
  | none =>
    ({ id := st.nextId, brokerType := brokerType, credentials := credentials },
     { instances := st.instances ++
        [(cacheKey brokerType credentials instanceId,
          { id := st.nextId, brokerType := brokerType, credentials := credentials })],
       nextId := st.nextId + 1 })

/-- Well-formedness of the registry state, maintained by `createBroker`
from the initial empty map: every cached instance was allocated below
the allocator's current value, and no two cached entries share an
instance id. -/
def WF (st : Registry) : Prop :=
  (∀ e ∈ st.instances, e.2.id < st.nextId) ∧
  st.instances.Pairwise fun a b => a.2.id ≠ b.2.id

end BrokerFactory

/-! Helper lemmas about the decimal representation, the splitter, and
the rate-limiter state. -/

theorem digitChar_isDigit (d : Nat) (h : d < 10) : (digitChar d).isDigit = true := by
  interval_cases d <;> decide

theorem digitChar_ne_underscore (d : Nat) (h : d < 10) : digitChar d ≠ '_' := by
  interval_cases d <;> decide

theorem digitChar_val (d : Nat) (h : d < 10) : (digitChar d).toNat - 48 = d := by
  interval_cases d <;> decide

theorem natDigitsF_ne_nil (fuel n : Nat) (h : n < fuel) : natDigitsF fuel n ≠ [] := by
  cases fuel with
  | zero => omega
  | succ f =>
    simp only [natDigitsF]
    split
    · simp
    · simp

theorem natDigitsF_all_digit (fuel : Nat) :
    ∀ n, n < fuel → ∀ c ∈ natDigitsF fuel n, c.isDigit = true := by
  induction fuel with
  | zero => intro n h; omega
  | succ f ih =>
    intro n h c hc
    simp only [natDigitsF] at hc
    by_cases h10 : n < 10
    · rw [if_pos h10] at hc
      simp only [List.mem_singleton] at hc
      subst hc
      exact digitChar_isDigit n h10
    · rw [if_neg h10] at hc
      rcases List.mem_append.mp hc with hl | hr
      · have hdn : n / 10 < n := Nat.div_lt_self (by omega) (by omega)
        exact ih (n / 10) (by omega) c hl
      · simp only [List.mem_singleton] at hr
        subst hr
        exact digitChar_isDigit (n % 10) (Nat.mod_lt _ (by omega))

theorem digitsVal_append_single (l : List Char) (c : Char) :
    digitsVal (l ++ [c]) = digitsVal l * 10 + (c.toNat - 48) := by
  simp [digitsVal, List.foldl_append]

theorem natDigitsF_val (fuel : Nat) :
    ∀ n, n < fuel → digitsVal (natDigitsF fuel n) = n := by
  induction fuel with
  | zero => intro n h; omega
  | succ f ih =>
    intro n h
    simp only [natDigitsF]
    by_cases h10 : n < 10
    · rw [if_pos h10]
      simp [digitsVal, List.foldl, digitChar_val n h10]
    · rw [if_neg h10]
      rw [digitsVal_append_single]
      have hdn : n / 10 < n := Nat.div_lt_self (by omega) (by omega)
      rw [ih (n / 10) (by omega), digitChar_val (n % 10) (Nat.mod_lt _ (by omega))]
      omega

theorem natRepr_data (n : Nat) : (natRepr n).data = natDigitsF (n + 1) n := rfl

theorem natRepr_all_digit (n : Nat) : ∀ c ∈ (natRepr n).data, c.isDigit = true :=
  natDigitsF_all_digit (n + 1) n (by omega)

theorem underscore_not_mem_natRepr (n : Nat) : '_' ∉ (natRepr n).data := by
  intro h
  have := natRepr_all_digit n '_' h
  simp [Char.isDigit] at this

theorem natRepr_inj {m n : Nat} (h : natRepr m = natRepr n) : m = n := by
  have hd : natDigitsF (m + 1) m = natDigitsF (n + 1) n := congrArg String.data h
  have hm := natDigitsF_val (m + 1) m (by omega)
  have hn := natDigitsF_val (n + 1) n (by omega)
  rw [hd, hn] at hm
  omega

theorem takeWhileAll {p : Char → Bool} :
    ∀ {l : List Char}, (∀ c ∈ l, p c = true) → l.takeWhile p = l := by
  intro l
  induction l with
  | nil => intro; rfl
  | cons a t ih =>
    intro h
    have ha := h a (List.mem_cons_self a t)
    simp [List.takeWhile, ha, ih fun c hc => h c (List.mem_cons_of_mem a hc)]

theorem jsParseInt_natRepr (n : Nat) : jsParseInt (natRepr n) = some n := by
  unfold jsParseInt
  rw [takeWhileAll (natRepr_all_digit n), natRepr_data]
  cases hl : natDigitsF (n + 1) n with
  | nil => exact absurd hl (natDigitsF_ne_nil (n + 1) n (by omega))
  | cons a t =>
    have hv := natDigitsF_val (n + 1) n (by omega)
    rw [hl] at hv
    simp [hv]

theorem jsSplitAux_no_sep (c : Char) :
    ∀ (l acc : List Char), c ∉ l → jsSplitAux c l acc = [acc.reverse ++ l] := by
  intro l
  induction l with
  | nil => intro acc h; simp [jsSplitAux]
  | cons a t ih =>
    intro acc h
    have hac : a ≠ c := fun he => h (by simp [he])
    simp only [jsSplitAux, if_neg hac]
    rw [ih (a :: acc) fun hm => h (List.mem_cons_of_mem a hm)]
    simp

theorem jsSplitAux_sep (c : Char) :
    ∀ (l1 l2 acc : List Char), c ∉ l1 →
      jsSplitAux c (l1 ++ c :: l2) acc = (acc.reverse ++ l1) :: jsSplitAux c l2 [] := by
  intro l1
  induction l1 with
  | nil => intro l2 acc h; simp [jsSplitAux]
  | cons a t ih =>
    intro l2 acc h
    have hac : a ≠ c := fun he => h (by simp [he])
    simp only [List.cons_append, jsSplitAux, if_neg hac, List.append_eq]
    rw [ih l2 (a :: acc) fun hm => h (List.mem_cons_of_mem a hm)]
    simp

theorem jsSplit_key (e b : String) (he : '_' ∉ e.data) (hb : '_' ∉ b.data) :
    jsSplit '_' (e ++ "_" ++ b) = [e, b] := by
  unfold jsSplit
  have hdata : (e ++ "_" ++ b).data = e.data ++ '_' :: b.data := by
    have h1 : "_".data = ['_'] := rfl
    rw [String.data_append, String.data_append, h1, List.append_assoc, List.singleton_append]
  rw [hdata, jsSplitAux_sep '_' e.data b.data [] he, jsSplitAux_no_sep '_' b.data [] hb]
  simp

theorem fdiv_window_shift (t W : Nat) (hW : 0 < W) :
    Int.fdiv ((t : Int) - (W : Int)) (W : Int) = ((t / W : Nat) : Int) - 1 := by
  have hW0 : ((W : Nat) : Int) ≠ 0 := by exact_mod_cast Nat.pos_iff_ne_zero.mp hW
  have h1 : ((t : Int) - (W : Int)) = (t : Int) + (-1) * (W : Int) := by ring
  rw [h1, Int.fdiv_eq_ediv _ (by exact_mod_cast Nat.zero_le W),
    Int.add_mul_ediv_right _ _ hW0, ← Int.ofNat_ediv]
  ring

theorem isStaleKey_key (e : String) (he : '_' ∉ e.data) (now W b : Nat) :
    BaseBroker.isStaleKey now W (e ++ "_" ++ natRepr b) =
      decide ((b : Int) < Int.fdiv ((now : Int) - (W : Int)) (W : Int)) := by
  unfold BaseBroker.isStaleKey
  rw [jsSplit_key e (natRepr b) he (underscore_not_mem_natRepr b)]
  simp only [List.get?]
  rw [jsParseInt_natRepr b]
  cases hl : (natRepr b).data with
  | nil => exact absurd (by rw [natRepr_data] at hl; exact hl) (natDigitsF_ne_nil (b + 1) b (by omega))
  | cons a t => simp [hl]

theorem isStaleKey_current (e : String) (he : '_' ∉ e.data) (t W : Nat) (hW : 0 < W) :
    BaseBroker.isStaleKey t W (e ++ "_" ++ natRepr (t / W)) = false := by
  rw [isStaleKey_key e he, fdiv_window_shift t W hW]
  simp only [decide_eq_false_iff_not]
  omega

theorem key_bucket_inj (e : String) {b1 b2 : Nat}
    (h : e ++ "_" ++ natRepr b1 = e ++ "_" ++ natRepr b2) : b1 = b2 := by
  have hd := congrArg String.data h
  rw [String.data_append, String.data_append, String.data_append, String.data_append] at hd
  exact natRepr_inj (String.ext (List.append_cancel_left hd))

/-- Rate-limiter state after `n` sequential `checkRateLimit` calls with a
fixed endpoint, limit, window and clock value, starting from the empty
map of a freshly constructed connector. -/
def rlCalls (endpoint : String) (limit windowMs t : Nat) : Nat → RLMap
  | 0 => []
  | n + 1 => (BaseBroker.checkRateLimit (rlCalls endpoint limit windowMs t n) t endpoint limit windowMs).2

theorem jsParseInt_some_ne_nil {seg : String} {n : Nat} (h : jsParseInt seg = some n) :
    seg.data.isEmpty = false := by
  unfold jsParseInt at h
  cases hl : seg.data with
  | nil => rw [hl] at h; simp [List.takeWhile] at h
  | cons a t => simp

theorem rlCalls_eq (e : String) (he : '_' ∉ e.data) (limit W t : Nat) (hW : 0 < W) :
    ∀ n, n ≤ limit →
      rlCalls e limit W t n = if n = 0 then [] else [(e ++ "_" ++ natRepr (t / W), n)] := by
  intro n
  induction n with
  | zero => intro _; rfl
  | succ m ih =>
    intro h
    simp only [rlCalls]
    rw [ih (by omega), if_neg (Nat.succ_ne_zero m)]
    by_cases hm : m = 0
    · subst hm
      rw [if_pos rfl]
      unfold BaseBroker.checkRateLimit
      rw [if_neg (by simp [BaseBroker.rlGet]; omega)]
      simp [BaseBroker.rlGet, BaseBroker.rlSet, List.filter, isStaleKey_current e he t W hW]
    · rw [if_neg hm]
      unfold BaseBroker.checkRateLimit
      rw [if_neg (by simp [BaseBroker.rlGet]; omega)]
      simp [BaseBroker.rlGet, BaseBroker.rlSet, List.filter, isStaleKey_current e he t W hW]

/-- C6 (amended): for an endpoint whose name contains no underscore (so
the cleanup loop's `split('_')[1]` really is the window bucket), with a
positive window and limit, starting from the empty map and keeping the
clock inside one fixed window: each of the first `limit` calls is
admitted, the `(limit+1)`-th call is denied without changing the map,
and a call one full window later is admitted again.  (The original
claim's "for any endpoint" fails: an endpoint such as `"a_0"` makes the
cleanup misparse and delete the live counter, see the counterexample.) -/
theorem c6_fixed_window_rate_limiting (e : String) (limit W t k : Nat)
    (hW : 0 < W) (he : '_' ∉ e.data) (hl : 0 < limit) (hk : k < limit) :
    (BaseBroker.checkRateLimit (rlCalls e limit W t k) t e limit W).1 = true ∧
    (BaseBroker.checkRateLimit (rlCalls e limit W t limit) t e limit W).1 = false ∧
    (BaseBroker.checkRateLimit (rlCalls e limit W t limit) t e limit W).2 = rlCalls e limit W t limit ∧
    (BaseBroker.checkRateLimit (rlCalls e limit W t limit) (t + W) e limit W).1 = true := by
  have hkey := rlCalls_eq e he limit W t hW
  refine ⟨?_, ?_, ?_, ?_⟩
  · rw [hkey k (by omega)]
    unfold BaseBroker.checkRateLimit
    by_cases hk0 : k = 0
    · subst hk0
      rw [if_pos rfl, if_neg (by simp [BaseBroker.rlGet]; omega)]
    · rw [if_neg hk0, if_neg (by simp [BaseBroker.rlGet]; omega)]
  · rw [hkey limit (by omega), if_neg (by omega)]
    unfold BaseBroker.checkRateLimit
    rw [if_pos (by simp [BaseBroker.rlGet])]
  · rw [hkey limit (by omega), if_neg (by omega)]
    unfold BaseBroker.checkRateLimit
    rw [if_pos (by simp [BaseBroker.rlGet])]
  · rw [hkey limit (by omega), if_neg (by omega)]
    unfold BaseBroker.checkRateLimit
    have hbucket : (t + W) / W = t / W + 1 := Nat.add_div_right t hW
    have hne : e ++ "_" ++ natRepr (t / W) ≠ e ++ "_" ++ natRepr ((t + W) / W) := by
      intro hcontra
      have := key_bucket_inj e hcontra
      omega
    rw [if_neg (by simp [BaseBroker.rlGet, hne]; omega)]

/-- C6 counterexample: the claim quantifies over any endpoint, but for
the endpoint `"a_0"` (limit 1, window 10) the cleanup loop parses the
`"0"` of the endpoint name as the window bucket and deletes the live
counter right after it is incremented, so the second call inside the
same window is admitted instead of denied. -/
theorem c6_counterexample_any_endpoint :
    (BaseBroker.checkRateLimit [] 100 "a_0" 1 10).1 = true ∧
    (BaseBroker.checkRateLimit (BaseBroker.checkRateLimit [] 100 "a_0" 1 10).2 100 "a_0" 1 10).1 = true := by
  decide

/-- C6 witness: the spec's concrete scenario, instantiating the amended
theorem at endpoint "order", limit 10, window 60000, one fixed clock
value: the 10th call is admitted, the 11th is denied and leaves the map
unchanged, and a call one window later is admitted. -/
theorem c6_fixed_window_rate_limiting_witness :
    (BaseBroker.checkRateLimit (rlCalls "order" 10 60000 0 9) 0 "order" 10 60000).1 = true ∧
    (BaseBroker.checkRateLimit (rlCalls "order" 10 60000 0 10) 0 "order" 10 60000).1 = false ∧
    (BaseBroker.checkRateLimit (rlCalls "order" 10 60000 0 10) 0 "order" 10 60000).2 = rlCalls "order" 10 60000 0 10 ∧
    (BaseBroker.checkRateLimit (rlCalls "order" 10 60000 0 10) (0 + 60000) "order" 10 60000).1 = true :=
  c6_fixed_window_rate_limiting "order" 10 60000 0 9 (by decide) (by decide) (by decide) (by decide)

theorem mem_rlSet_of_ne {l : RLMap} {key : String} {val : Nat} {k : String} {v : Nat}
    (hne : k ≠ key) (h : (k, v) ∈ l) : (k, v) ∈ BaseBroker.rlSet l key val := by
  induction l with
  | nil => cases h
  | cons hd t ih =>
    obtain ⟨k', v'⟩ := hd
    unfold BaseBroker.rlSet
    by_cases hk : k' = key
    · rw [if_pos hk]
      rcases List.mem_cons.mp h with heq | hmem
      · exfalso
        simp only [Prod.mk.injEq] at heq
        exact hne (heq.1.trans hk)
      · exact List.mem_cons_of_mem _ hmem
    · rw [if_neg hk]
      rcases List.mem_cons.mp h with heq | hmem
      · exact heq ▸ List.mem_cons_self _ _
      · exact List.mem_cons_of_mem _ (ih hmem)

/-- C7 (amended): a denied call purges nothing at all (it returns before
the cleanup loop), and an admitted call removes exactly the keys whose
parsed second segment is strictly below the previous window's bucket
`floor((now - W)/W)`: every surviving key whose second segment parses as
a number `n` satisfies `floor((now - W)/W) ≤ n` (stale keys are gone),
and conversely every entry of the pre-call map other than the current
window's counter that is not stale survives — in particular every key
whose second segment is missing or does not parse as a number (such as
the keys of the `order_status` endpoint) is never stale, and a key whose
parsed bucket is at least the current bucket minus one (the immediately
preceding window) is never stale.  This contradicts the original claim
that on each call every key older than the current window is removed. -/
theorem c7_stale_purge_characterization (rl : RLMap) (now : Nat) (e : String) (limit W : Nat) :
    ((BaseBroker.checkRateLimit rl now e limit W).1 = false →
      (BaseBroker.checkRateLimit rl now e limit W).2 = rl) ∧
    (∀ kv, kv ∈ (BaseBroker.checkRateLimit rl now e limit W).2 →
      (BaseBroker.checkRateLimit rl now e limit W).1 = true →
      ∀ seg n, (jsSplit '_' kv.1).get? 1 = some seg → jsParseInt seg = some n →
        Int.fdiv ((now : Int) - (W : Int)) (W : Int) ≤ (n : Int)) ∧
    ((BaseBroker.checkRateLimit rl now e limit W).1 = true →
      ∀ k v, (k, v) ∈ rl → k ≠ e ++ "_" ++ natRepr (now / W) →
        BaseBroker.isStaleKey now W k = false →
        (k, v) ∈ (BaseBroker.checkRateLimit rl now e limit W).2) ∧
    (∀ k, (jsSplit '_' k).get? 1 = none → BaseBroker.isStaleKey now W k = false) ∧
    (∀ k seg, (jsSplit '_' k).get? 1 = some seg → jsParseInt seg = none →
      BaseBroker.isStaleKey now W k = false) ∧
    (0 < W → ∀ k seg n, (jsSplit '_' k).get? 1 = some seg → jsParseInt seg = some n →
      ((now / W : Nat) : Int) - 1 ≤ (n : Int) → BaseBroker.isStaleKey now W k = false) := by
  refine ⟨?_, ?_, ?_, ?_, ?_, ?_⟩
  · intro hfalse
    unfold BaseBroker.checkRateLimit at hfalse ⊢
    by_cases h : limit ≤ (BaseBroker.rlGet rl (e ++ "_" ++ natRepr (now / W))).getD 0
    · rw [if_pos h]
    · rw [if_neg h] at hfalse
      simp at hfalse
  · intro kv hkv htrue seg n hseg hparse
    unfold BaseBroker.checkRateLimit at hkv
    by_cases h : limit ≤ (BaseBroker.rlGet rl (e ++ "_" ++ natRepr (now / W))).getD 0
    · unfold BaseBroker.checkRateLimit at htrue
      rw [if_pos h] at htrue
      simp at htrue
    · rw [if_neg h] at hkv
      have hfilter := (List.mem_filter.mp hkv).2
      have hstale : BaseBroker.isStaleKey now W kv.1 = false := by
        cases hb : BaseBroker.isStaleKey now W kv.1 with
        | false => rfl
        | true => rw [hb] at hfilter; simp at hfilter
      unfold BaseBroker.isStaleKey at hstale
      rw [hseg] at hstale
      have hne := jsParseInt_some_ne_nil hparse
      simp only [hne, hparse, Bool.false_eq_true, if_false, decide_eq_false_iff_not] at hstale
      omega
  · intro htrue k v hmem hne hstale
    unfold BaseBroker.checkRateLimit at htrue ⊢
    by_cases h : limit ≤ (BaseBroker.rlGet rl (e ++ "_" ++ natRepr (now / W))).getD 0
    · rw [if_pos h] at htrue
      simp at htrue
    · rw [if_neg h]
      refine List.mem_filter.mpr ⟨mem_rlSet_of_ne hne hmem, ?_⟩
      simp [hstale]
  · intro k hk
    unfold BaseBroker.isStaleKey
    rw [hk]
  · intro k seg hseg hparse
    unfold BaseBroker.isStaleKey
    rw [hseg]
    cases hemp : seg.data.isEmpty with
    | false => simp only [hemp, Bool.false_eq_true, if_false, hparse]
    | true => simp [hemp]
  · intro hW k seg n hseg hparse hge
    unfold BaseBroker.isStaleKey
    rw [hseg]
    cases hemp : seg.data.isEmpty with
    | false =>
      simp only [hemp, Bool.false_eq_true, if_false, hparse, decide_eq_false_iff_not]
      rw [fdiv_window_shift now W hW]
      omega
    | true => simp [hemp]

/-- C7 counterexample: an admitted call (endpoint "e", window 10ms) made
at clock 25 — current window bucket 2 — leaves the key `"e_1"` of the
preceding window bucket 1 in the map, because the cleanup threshold is
`floor((25-10)/10) = 1` and `1 < 1` is false; so a key strictly older
than the current window survives the call. -/
theorem c7_counterexample_previous_window_survives :
    (BaseBroker.checkRateLimit (BaseBroker.checkRateLimit [] 15 "e" 5 10).2 25 "e" 5 10).1 = true ∧
    ("e_1", 1) ∈ (BaseBroker.checkRateLimit (BaseBroker.checkRateLimit [] 15 "e" 5 10).2 25 "e" 5 10).2 ∧
    (1 : Nat) < 25 / 10 := by
  decide

/-- C7 witness: the amended theorem applied at concrete inputs — a
denied call (counter already at the limit) leaves the map untouched;
after an admitted call at clock 105 the surviving key `"z_10"` parses to
bucket 10, at least the threshold `floor((105-10)/10) = 9`; an admitted
call at clock 25 (endpoint "z", window 10) keeps both the unparseable
key `"order_status_3"` and the preceding-window key `"z_1"` in the map;
and the staleness test itself clears a key with no second segment, a
non-numeric second segment, and a preceding-window bucket. -/
theorem c7_stale_purge_characterization_witness :
    (BaseBroker.checkRateLimit [("z_10", 3)] 100 "z" 3 10).2 = [("z_10", 3)] ∧
    Int.fdiv ((105 : Int) - (10 : Int)) (10 : Int) ≤ ((10 : Nat) : Int) ∧
    ("order_status_3", 2) ∈
      (BaseBroker.checkRateLimit [("order_status_3", 2), ("z_1", 1)] 25 "z" 5 10).2 ∧
    ("z_1", 1) ∈
      (BaseBroker.checkRateLimit [("order_status_3", 2), ("z_1", 1)] 25 "z" 5 10).2 ∧
    BaseBroker.isStaleKey 25 10 "nounderscore" = false ∧
    BaseBroker.isStaleKey 25 10 "order_status_3" = false ∧
    BaseBroker.isStaleKey 25 10 "z_1" = false :=
  ⟨(c7_stale_purge_characterization [("z_10", 3)] 100 "z" 3 10).1 (by decide),
   (c7_stale_purge_characterization [] 105 "z" 3 10).2.1 ("z_10", 1) (by decide) (by decide)
     "10" 10 (by decide) (by decide),
   (c7_stale_purge_characterization [("order_status_3", 2), ("z_1", 1)] 25 "z" 5 10).2.2.1
     (by decide) "order_status_3" 2 (by decide) (by decide) (by decide),
   (c7_stale_purge_characterization [("order_status_3", 2), ("z_1", 1)] 25 "z" 5 10).2.2.1
     (by decide) "z_1" 1 (by decide) (by decide) (by decide),
   (c7_stale_purge_characterization [] 25 "z" 5 10).2.2.2.1 "nounderscore" (by decide),
   (c7_stale_purge_characterization [] 25 "z" 5 10).2.2.2.2.1 "order_status_3" "status"
     (by decide) (by decide),
   (c7_stale_purge_characterization [] 25 "z" 5 10).2.2.2.2.2 (by decide) "z_1" "1" 1
     (by decide) (by decide) (by decide)⟩

/-! Registry lemmas and the registry claims. -/

theorem findInstance_append_none {l : List (String × BrokerInstance)} {k : String}
    (h : BrokerFactory.findInstance l k = none) (b : BrokerInstance) :
    BrokerFactory.findInstance (l ++ [(k, b)]) k = some b := by
  induction l with
  | nil => simp [BrokerFactory.findInstance]
  | cons e t ih =>
    unfold BrokerFactory.findInstance at h ⊢
    by_cases he : e.1 = k
    · rw [if_pos he] at h; cases h
    · rw [if_neg he] at h
      simp only [List.cons_append]
      rw [if_neg he]
      exact ih h

theorem findInstance_append_other {l : List (String × BrokerInstance)} {k k' : String}
    (hne : k ≠ k') (b : BrokerInstance) :
    BrokerFactory.findInstance (l ++ [(k', b)]) k = BrokerFactory.findInstance l k := by
  induction l with
  | nil => simp [BrokerFactory.findInstance, Ne.symm hne]
  | cons e t ih =>
    unfold BrokerFactory.findInstance
    simp only [List.cons_append]
    by_cases he : e.1 = k
    · rw [if_pos he, if_pos he]
    · rw [if_neg he, if_neg he]
      exact ih

theorem findInstance_mem {l : List (String × BrokerInstance)} {k : String} {b : BrokerInstance}
    (h : BrokerFactory.findInstance l k = some b) : (k, b) ∈ l := by
  induction l with
  | nil => cases h
  | cons e t ih =>
    obtain ⟨k', b'⟩ := e
    unfold BrokerFactory.findInstance at h
    by_cases he : k' = k
    · rw [if_pos he] at h
      injection h with hb
      subst he
      subst hb
      exact List.mem_cons_self _ _
    · rw [if_neg he] at h
      exact List.mem_cons_of_mem _ (ih h)

theorem createBroker_cached {st : BrokerFactory.Registry} {bt : SupportedBroker}
    {c : BrokerCredentials} {iid : Option String} {b : BrokerInstance}
    (h : BrokerFactory.findInstance st.instances (BrokerFactory.cacheKey bt c iid) = some b) :
    BrokerFactory.createBroker st bt c iid = (b, st) := by
  unfold BrokerFactory.createBroker
  rw [h]

theorem createBroker_fresh {st : BrokerFactory.Registry} {bt : SupportedBroker}
    {c : BrokerCredentials} {iid : Option String}
    (h : BrokerFactory.findInstance st.instances (BrokerFactory.cacheKey bt c iid) = none) :
    BrokerFactory.createBroker st bt c iid =
      ({ id := st.nextId, brokerType := bt, credentials := c },
       { instances := st.instances ++
          [(BrokerFactory.cacheKey bt c iid,
            { id := st.nextId, brokerType := bt, credentials := c })],
         nextId := st.nextId + 1 }) := by
  unfold BrokerFactory.createBroker
  rw [h]

/-- C5: the registry lookup is idempotent on the instance key: repeating
`createBroker` with the same broker type, credentials and optional
instance id returns the identical connector instance and leaves the
registry unchanged, while a second call resolving to a different cache
key returns a connector distinct from the first call's (given a
well-formed registry state, as maintained from the empty registry). -/
theorem c5_createBroker_idempotent_on_key (st : BrokerFactory.Registry)
    (hWF : BrokerFactory.WF st) (bt1 bt2 : SupportedBroker)
    (c1 c2 : BrokerCredentials) (i1 i2 : Option String) :
    ((BrokerFactory.createBroker (BrokerFactory.createBroker st bt1 c1 i1).2 bt1 c1 i1).1 =
        (BrokerFactory.createBroker st bt1 c1 i1).1 ∧
      (BrokerFactory.createBroker (BrokerFactory.createBroker st bt1 c1 i1).2 bt1 c1 i1).2 =
        (BrokerFactory.createBroker st bt1 c1 i1).2) ∧
    (BrokerFactory.cacheKey bt1 c1 i1 ≠ BrokerFactory.cacheKey bt2 c2 i2 →
      (BrokerFactory.createBroker (BrokerFactory.createBroker st bt1 c1 i1).2 bt2 c2 i2).1.id ≠
        (BrokerFactory.createBroker st bt1 c1 i1).1.id) := by
  obtain ⟨hbound, hpair⟩ := hWF
  have hsymm : Symmetric fun a b : String × BrokerInstance => a.2.id ≠ b.2.id :=
    fun a b hab => (Ne.symm hab)
  cases h1 : BrokerFactory.findInstance st.instances (BrokerFactory.cacheKey bt1 c1 i1) with
  | some b =>
    rw [createBroker_cached h1]
    refine ⟨by rw [createBroker_cached h1]; exact ⟨rfl, rfl⟩, ?_⟩
    intro hk
    cases h2 : BrokerFactory.findInstance st.instances (BrokerFactory.cacheKey bt2 c2 i2) with
    | some b2 =>
      rw [createBroker_cached h2]
      have hm1 := findInstance_mem h1
      have hm2 := findInstance_mem h2
      have hnepair : (BrokerFactory.cacheKey bt2 c2 i2, b2) ≠ (BrokerFactory.cacheKey bt1 c1 i1, b) := by
        intro hcontra
        exact hk (congrArg Prod.fst hcontra).symm
      exact hpair.forall hsymm hm2 hm1 hnepair
    | none =>
      rw [createBroker_fresh h2]
      have hb : b.id < st.nextId := hbound _ (findInstance_mem h1)
      simp only []
      omega
  | none =>
    rw [createBroker_fresh h1]
    refine ⟨?_, ?_⟩
    · have h1' : BrokerFactory.findInstance
          (st.instances ++ [(BrokerFactory.cacheKey bt1 c1 i1,
            { id := st.nextId, brokerType := bt1, credentials := c1 })])
          (BrokerFactory.cacheKey bt1 c1 i1) =
          some { id := st.nextId, brokerType := bt1, credentials := c1 } :=
        findInstance_append_none h1 _
      rw [createBroker_cached h1']
      simp
    · intro hk
      cases h2 : BrokerFactory.findInstance st.instances (BrokerFactory.cacheKey bt2 c2 i2) with
      | some b2 =>
        have h2' : BrokerFactory.findInstance
            (st.instances ++ [(BrokerFactory.cacheKey bt1 c1 i1,
              { id := st.nextId, brokerType := bt1, credentials := c1 })])
            (BrokerFactory.cacheKey bt2 c2 i2) = some b2 := by
          rw [findInstance_append_other (Ne.symm hk) _, h2]
        rw [createBroker_cached h2']
        have hb2 : b2.id < st.nextId := hbound _ (findInstance_mem h2)
        simp only []
        omega
      | none =>
        have h2' : BrokerFactory.findInstance
            (st.instances ++ [(BrokerFactory.cacheKey bt1 c1 i1,
              { id := st.nextId, brokerType := bt1, credentials := c1 })])
            (BrokerFactory.cacheKey bt2 c2 i2) = none := by
          rw [findInstance_append_other (Ne.symm hk) _, h2]
        rw [createBroker_fresh h2']
        simp only []
        omega

/-- C5 witness: the theorem applied to the empty registry with two
lookups that resolve to different cache keys (BYBIT vs OKX, default
key derivation). -/
theorem c5_createBroker_idempotent_on_key_witness :
    ((BrokerFactory.createBroker
        (BrokerFactory.createBroker ⟨[], 0⟩ .BYBIT ⟨"AAAABBBBCCCC", "s1", none, none⟩ none).2
        .BYBIT ⟨"AAAABBBBCCCC", "s1", none, none⟩ none).1 =
      (BrokerFactory.createBroker ⟨[], 0⟩ .BYBIT ⟨"AAAABBBBCCCC", "s1", none, none⟩ none).1 ∧
      (BrokerFactory.createBroker
        (BrokerFactory.createBroker ⟨[], 0⟩ .BYBIT ⟨"AAAABBBBCCCC", "s1", none, none⟩ none).2
        .BYBIT ⟨"AAAABBBBCCCC", "s1", none, none⟩ none).2 =
      (BrokerFactory.createBroker ⟨[], 0⟩ .BYBIT ⟨"AAAABBBBCCCC", "s1", none, none⟩ none).2) ∧
    (BrokerFactory.createBroker
      (BrokerFactory.createBroker ⟨[], 0⟩ .BYBIT ⟨"AAAABBBBCCCC", "s1", none, none⟩ none).2
      .OKX ⟨"AAAABBBBCCCC", "s1", none, none⟩ none).1.id ≠
      (BrokerFactory.createBroker ⟨[], 0⟩ .BYBIT ⟨"AAAABBBBCCCC", "s1", none, none⟩ none).1.id :=
  ⟨(c5_createBroker_idempotent_on_key ⟨[], 0⟩ ⟨by simp, List.Pairwise.nil⟩
      .BYBIT .OKX ⟨"AAAABBBBCCCC", "s1", none, none⟩ ⟨"AAAABBBBCCCC", "s1", none, none⟩ none none).1,
   (c5_createBroker_idempotent_on_key ⟨[], 0⟩ ⟨by simp, List.Pairwise.nil⟩
      .BYBIT .OKX ⟨"AAAABBBBCCCC", "s1", none, none⟩ ⟨"AAAABBBBCCCC", "s1", none, none⟩ none none).2
      (by decide)⟩

/-- C10: when no instance id is supplied, the cache key is the broker
type joined with only the first 8 characters of the API key, so a
second `createBroker` call with different credentials whose API key
shares that 8-character prefix returns the connector cached by the
first call — still bound to the first call's credentials — and leaves
the registry unchanged, never using the second credentials. -/
theorem c10_cache_key_truncation (st : BrokerFactory.Registry) (bt : SupportedBroker)
    (c1 c2 : BrokerCredentials) (hpre : c1.apiKey.take 8 = c2.apiKey.take 8)
    (hfresh : BrokerFactory.findInstance st.instances (BrokerFactory.cacheKey bt c1 none) = none) :
    (BrokerFactory.createBroker st bt c1 none).1.credentials = c1 ∧
    (BrokerFactory.createBroker (BrokerFactory.createBroker st bt c1 none).2 bt c2 none).1 =
      (BrokerFactory.createBroker st bt c1 none).1 ∧
    (BrokerFactory.createBroker (BrokerFactory.createBroker st bt c1 none).2 bt c2 none).2 =
      (BrokerFactory.createBroker st bt c1 none).2 := by
  have hkeys : BrokerFactory.cacheKey bt c2 none = BrokerFactory.cacheKey bt c1 none := by
    unfold BrokerFactory.cacheKey
    rw [hpre]
  rw [createBroker_fresh hfresh]
  have h2 : BrokerFactory.findInstance
      (st.instances ++ [(BrokerFactory.cacheKey bt c1 none,
        { id := st.nextId, brokerType := bt, credentials := c1 })])
      (BrokerFactory.cacheKey bt c2 none) =
      some { id := st.nextId, brokerType := bt, credentials := c1 } := by
    rw [hkeys]
    exact findInstance_append_none hfresh _
  rw [createBroker_cached h2]
  exact ⟨rfl, rfl, rfl⟩

/-- C10 witness: two credential sets differing in API key tail, secret
and passphrase but sharing the 8-character API-key prefix: the second
call returns the first call's connector, bound to the first credentials. -/
theorem c10_cache_key_truncation_witness :
    (BrokerFactory.createBroker ⟨[], 0⟩ .BINANCE ⟨"ABCDEFGH-one", "secret1", none, none⟩ none).1.credentials =
      ⟨"ABCDEFGH-one", "secret1", none, none⟩ ∧
    (BrokerFactory.createBroker
      (BrokerFactory.createBroker ⟨[], 0⟩ .BINANCE ⟨"ABCDEFGH-one", "secret1", none, none⟩ none).2
      .BINANCE ⟨"ABCDEFGH-two", "secret2", some "pp", none⟩ none).1 =
      (BrokerFactory.createBroker ⟨[], 0⟩ .BINANCE ⟨"ABCDEFGH-one", "secret1", none, none⟩ none).1 ∧
    (BrokerFactory.createBroker
      (BrokerFactory.createBroker ⟨[], 0⟩ .BINANCE ⟨"ABCDEFGH-one", "secret1", none, none⟩ none).2
      .BINANCE ⟨"ABCDEFGH-two", "secret2", some "pp", none⟩ none).2 =
      (BrokerFactory.createBroker ⟨[], 0⟩ .BINANCE ⟨"ABCDEFGH-one", "secret1", none, none⟩ none).2 :=
  c10_cache_key_truncation ⟨[], 0⟩ .BINANCE ⟨"ABCDEFGH-one", "secret1", none, none⟩
    ⟨"ABCDEFGH-two", "secret2", some "pp", none⟩ (by decide) (by decide)

/-! Connector claims: credential validation and connect. -/

/-- C1 counterexample: a timed-out probe call is a non-auth
infrastructure failure, yet for all four connectors `validateCredentials`
returns the boolean `false` for it instead of propagating an error — the
whole method body sits in a catch-all that returns `false`. -/
theorem c1_counterexample_timeout_returns_false :
    (DeltaExchangeBroker.validateCredentials [] 0 (.failure .etimedout)).1 = false ∧
    (BinanceFuturesBroker.validateCredentials [] 0 (.failure .etimedout)).1 = false ∧
    (BybitBroker.validateCredentials [] 0 (.failure .etimedout)).1 = false ∧
    (OKXBroker.validateCredentials [] 0 (.failure .etimedout)).1 = false := by
  decide

/-- C1 (amended): for every connector, `validateCredentials` never
propagates any failure: every REST failure (auth, timeout, refused,
5xx) and the locally denied rate-limit check yield the boolean `false`;
the call returns `true` exactly when the rate limit admits the call and
the authenticated probe's response satisfies the connector's success
predicate. -/
theorem c1_validateCredentials_never_throws :
    (∀ rl now c, (DeltaExchangeBroker.validateCredentials rl now (.failure c)).1 = false) ∧
    (∀ rl now r, (DeltaExchangeBroker.validateCredentials rl now (.success r)).1 =
      ((BaseBroker.checkRateLimit rl now "validate" 10 60000).1 && (r.status == 200 && r.success))) ∧
    (∀ rl now c, (BinanceFuturesBroker.validateCredentials rl now (.failure c)).1 = false) ∧
    (∀ rl now r, (BinanceFuturesBroker.validateCredentials rl now (.success r)).1 =
      ((BaseBroker.checkRateLimit rl now "validate" 10 60000).1 && (r.status == 200 && r.canTrade))) ∧
    (∀ rl now c, (BybitBroker.validateCredentials rl now (.failure c)).1 = false) ∧
    (∀ rl now r, (BybitBroker.validateCredentials rl now (.success r)).1 =
      ((BaseBroker.checkRateLimit rl now "validate" 10 60000).1 && (r.retCode == 0))) ∧
    (∀ rl now c, (OKXBroker.validateCredentials rl now (.failure c)).1 = false) ∧
    (∀ rl now r, (OKXBroker.validateCredentials rl now (.success r)).1 =
      ((BaseBroker.checkRateLimit rl now "validate" 10 60000).1 && (r.code == "0"))) := by
  refine ⟨?_, ?_, ?_, ?_, ?_, ?_, ?_, ?_⟩ <;>
    · intro rl now x
      rcases hc : BaseBroker.checkRateLimit rl now "validate" 10 60000 with ⟨ok, rl1⟩
      cases ok <;>
        simp [DeltaExchangeBroker.validateCredentials, BinanceFuturesBroker.validateCredentials,
          BybitBroker.validateCredentials, OKXBroker.validateCredentials, hc]

/-- C2 counterexample: with credentials the exchange rejects (HTTP 401
on the probe), Delta's `connect` still completes successfully and sets
`isConnected = true` as soon as the WebSocket opens, because the boolean
result of `validateCredentials` is discarded. -/
theorem c2_counterexample_connect_ignores_validation :
    (DeltaExchangeBroker.connect [] 0 (.failure (.http 401 "Request failed with status code 401")) .opened).1 =
      Except.ok () ∧
    (DeltaExchangeBroker.connect [] 0 (.failure (.http 401 "Request failed with status code 401")) .opened).2.1 =
      true ∧
    (DeltaExchangeBroker.validateCredentials [] 0 (.failure (.http 401 "Request failed with status code 401"))).1 =
      false :=
  ⟨rfl, rfl, rfl⟩

/-- C2 (amended): for every connector, `connect` ignores the boolean
outcome of credential validation entirely: it completes successfully
with `isConnected = true` whenever the WebSocket handshake succeeds —
whatever the credential probe returned — and it throws the classified
error and leaves `isConnected = false` exactly when the handshake
fails. -/
theorem c2_connect_ignores_credential_validation :
    (∀ rl now (api : ApiResult DeltaExchangeBroker.ProfileResp) msg,
      (DeltaExchangeBroker.connect rl now api .opened).1 = .ok () ∧
      (DeltaExchangeBroker.connect rl now api .opened).2.1 = true ∧
      (DeltaExchangeBroker.connect rl now api (.failed msg)).1 =
        .error (BaseBroker.handleError (.jsError msg)) ∧
      (DeltaExchangeBroker.connect rl now api (.failed msg)).2.1 = false) ∧
    (∀ rl now (api : ApiResult BinanceFuturesBroker.AccountResp) msg,
      (BinanceFuturesBroker.connect rl now api .opened).1 = .ok () ∧
      (BinanceFuturesBroker.connect rl now api .opened).2.1 = true ∧
      (BinanceFuturesBroker.connect rl now api (.failed msg)).1 =
        .error (BaseBroker.handleError (.jsError msg)) ∧
      (BinanceFuturesBroker.connect rl now api (.failed msg)).2.1 = false) ∧
    (∀ rl now (api : ApiResult BybitBroker.AccountInfoResp) msg,
      (BybitBroker.connect rl now api .opened).1 = .ok () ∧
      (BybitBroker.connect rl now api .opened).2.1 = true ∧
      (BybitBroker.connect rl now api (.failed msg)).1 =
        .error (BaseBroker.handleError (.jsError msg)) ∧
      (BybitBroker.connect rl now api (.failed msg)).2.1 = false) ∧
    (∀ rl now (api : ApiResult OKXBroker.ConfigResp) msg,
      (OKXBroker.connect rl now api .opened).1 = .ok () ∧
      (OKXBroker.connect rl now api .opened).2.1 = true ∧
      (OKXBroker.connect rl now api (.failed msg)).1 =
        .error (BaseBroker.handleError (.jsError msg)) ∧
      (OKXBroker.connect rl now api (.failed msg)).2.1 = false) := by
  refine ⟨?_, ?_, ?_, ?_⟩
  · intro rl now api msg
    rcases hv : DeltaExchangeBroker.validateCredentials rl now api with ⟨v, rl1⟩
    simp [DeltaExchangeBroker.connect, hv]
  · intro rl now api msg
    rcases hv : BinanceFuturesBroker.validateCredentials rl now api with ⟨v, rl1⟩
    simp [BinanceFuturesBroker.connect, hv]
  · intro rl now api msg
    rcases hv : BybitBroker.validateCredentials rl now api with ⟨v, rl1⟩
    simp [BybitBroker.connect, hv]
  · intro rl now api msg
    rcases hv : OKXBroker.validateCredentials rl now api with ⟨v, rl1⟩
    simp [OKXBroker.connect, hv]

/-! Balance normalization claims. -/

/-- C3 counterexample: Delta's `getAccountBalance` copies the exchange
fields through unchanged and filters nothing, so a native row with
`available_balance = 1`, `order_margin = 1`, `wallet_balance = 0`
produces a returned row with `total = 0` (not `> 0`, a zero-balance row
that should never appear) and `total` differing from `free + locked` by
2, far beyond the 1e-8 tolerance. -/
theorem c3_counterexample_delta_balance_row :
    (DeltaExchangeBroker.getAccountBalance [] 0
        (.success ⟨true, [⟨"USD", 1, 1, 0⟩]⟩)).1 =
      Except.ok [{ asset := "USD", free := 1, locked := 1, total := 0 }] ∧
    ¬(0 < ({ asset := "USD", free := 1, locked := 1, total := 0 } : AccountBalance).total) ∧
    ¬(|({ asset := "USD", free := 1, locked := 1, total := 0 } : AccountBalance).total -
        (({ asset := "USD", free := 1, locked := 1, total := 0 } : AccountBalance).free +
         ({ asset := "USD", free := 1, locked := 1, total := 0 } : AccountBalance).locked)| ≤
      1 / 100000000) := by
  refine ⟨rfl, by norm_num, ?_⟩
  simp only []
  rw [show ((0 : ℚ) - (1 + 1)) = -2 by norm_num, abs_neg, abs_of_nonneg (by norm_num : (0:ℚ) ≤ 2)]
  norm_num

/-- C3 (amended): for Binance-Futures, Bybit and OKX every returned
balance row satisfies `total = free + locked` exactly (hence within any
positive tolerance) and `total > 0`, because `locked` is derived as
`total - free` and rows are filtered on a positive native total; Delta
Exchange maps `available_balance` / `order_margin` / `wallet_balance`
through unchanged with no filter and no derived sum, so neither
guarantee holds for it (see the counterexample). -/
theorem c3_balance_invariant_binance_bybit_okx :
    (∀ rl now api bs b, (BinanceFuturesBroker.getAccountBalance rl now api).1 = .ok bs →
      b ∈ bs → b.total = b.free + b.locked ∧ 0 < b.total) ∧
    (∀ rl now api bs b, (BybitBroker.getAccountBalance rl now api).1 = .ok bs →
      b ∈ bs → b.total = b.free + b.locked ∧ 0 < b.total) ∧
    (∀ rl now api bs b, (OKXBroker.getAccountBalance rl now api).1 = .ok bs →
      b ∈ bs → b.total = b.free + b.locked ∧ 0 < b.total) := by
  refine ⟨?_, ?_, ?_⟩
  · intro rl now api bs b h hb
    rcases hc : BaseBroker.checkRateLimit rl now "balance" 10 60000 with ⟨ok, rl1⟩
    rw [BinanceFuturesBroker.getAccountBalance] at h
    rw [hc] at h
    cases ok
    · simp at h
    · cases api with
      | failure c => simp at h
      | success rows =>
        simp only [Bool.not_true, Bool.false_eq_true, if_false, Except.ok.injEq] at h
        subst h
        simp only [List.mem_map, List.mem_filter] at hb
        obtain ⟨row, ⟨hmem, hpos⟩, hb⟩ := hb
        subst hb
        simp only [decide_eq_true_eq] at hpos
        exact ⟨by ring, hpos⟩
  · intro rl now api bs b h hb
    rcases hc : BaseBroker.checkRateLimit rl now "balance" 10 60000 with ⟨ok, rl1⟩
    rw [BybitBroker.getAccountBalance] at h
    rw [hc] at h
    cases ok
    · simp at h
    · cases api with
      | failure c => simp at h
      | success r =>
        by_cases hcode : r.retCode != 0
        · simp [hcode] at h
        · simp only [hcode, Bool.not_true, Bool.false_eq_true, if_false, Except.ok.injEq] at h
          subst h
          simp only [List.mem_flatten, List.mem_map, List.mem_filter] at hb
          obtain ⟨l, ⟨acct, hacct, hl⟩, hbl⟩ := hb
          subst hl
          simp only [List.mem_map, List.mem_filter] at hbl
          obtain ⟨coin, ⟨hcmem, hpos⟩, hb⟩ := hbl
          subst hb
          simp only [decide_eq_true_eq] at hpos
          exact ⟨by ring, hpos⟩
  · intro rl now api bs b h hb
    rcases hc : BaseBroker.checkRateLimit rl now "balance" 10 60000 with ⟨ok, rl1⟩
    rw [OKXBroker.getAccountBalance] at h
    rw [hc] at h
    cases ok
    · simp at h
    · cases api with
      | failure c => simp at h
      | success r =>
        by_cases hcode : r.code != "0"
        · simp [hcode] at h
        · simp only [hcode, Bool.not_true, Bool.false_eq_true, if_false, Except.ok.injEq] at h
          subst h
          simp only [List.mem_flatten, List.mem_map, List.mem_filter] at hb
          obtain ⟨l, ⟨acct, hacct, hl⟩, hbl⟩ := hb
          subst hl
          simp only [List.mem_map, List.mem_filter] at hbl
          obtain ⟨d, ⟨hdmem, hpos⟩, hb⟩ := hbl
          subst hb
          simp only [decide_eq_true_eq] at hpos
          exact ⟨by ring, hpos⟩

/-- C3 witness: the amended theorem applied to a concrete Binance
balance response with one positive row. -/
theorem c3_balance_invariant_witness :
    ({ asset := "USDT", free := 2, locked := 5 - 2, total := 5 } : AccountBalance).total =
      ({ asset := "USDT", free := 2, locked := 5 - 2, total := 5 } : AccountBalance).free +
        ({ asset := "USDT", free := 2, locked := 5 - 2, total := 5 } : AccountBalance).locked ∧
    0 < ({ asset := "USDT", free := 2, locked := 5 - 2, total := 5 } : AccountBalance).total :=
  c3_balance_invariant_binance_bybit_okx.1 [] 0 (.success [⟨"USDT", 5, 2⟩])
    [⟨"USDT", 2, 5 - 2, 5⟩] ⟨"USDT", 2, 5 - 2, 5⟩ rfl (List.mem_singleton.mpr rfl)

/-! Order placement and status normalization claims. -/

/-- C4 counterexample: a Bybit synchronous acknowledgment carrying the
native status "Filled" still yields `TradeResult.status = pending`,
because Bybit's `placeOrder` hard-codes the literal 'pending' and never
consults the acknowledgment's status; the §4.2 mapping of "Filled" is
`filled`, not `pending`. -/
theorem c4_counterexample_bybit_hard_coded_pending :
    (BybitBroker.placeOrder [] 0 ⟨"BTCUSDT", "buy", "market", 1, none, none, none⟩
        (.success ⟨0, "OK", "abc", "Filled"⟩)).1 =
      Except.ok ⟨"abc", "BTCUSDT", "buy", 1, 0, .pending, 0, some 0⟩ ∧
    BybitBroker.mapOrderStatus "Filled" = .filled ∧
    OrderStatus.pending ≠ OrderStatus.filled :=
  ⟨rfl, rfl, by decide⟩

/-- C4 (amended): on a successful synchronous acknowledgment,
Binance-Futures and Delta return `mapOrderStatus` of the native status
(resp. state) carried by the acknowledgment — so a Binance "NEW"
acknowledgment yields `pending` — but Bybit returns the hard-coded
literal `pending` whatever the acknowledgment says, and OKX applies
`mapOrderStatus` to the acknowledgment's `sCode` result code (the
string "0" on success), which is not an order state and lands in the
default `pending` branch. -/
theorem c4_placeOrder_status_normalization :
    (∀ rl now o resp r, (BinanceFuturesBroker.placeOrder rl now o (.success resp)).1 = .ok r →
      r.status = BinanceFuturesBroker.mapOrderStatus resp.status) ∧
    (∀ rl now o resp r, (DeltaExchangeBroker.placeOrder rl now o (.success resp)).1 = .ok r →
      r.status = DeltaExchangeBroker.mapOrderStatus resp.result.state) ∧
    (∀ rl now o resp r, (BybitBroker.placeOrder rl now o (.success resp)).1 = .ok r →
      r.status = .pending) ∧
    (∀ rl now o resp r, (OKXBroker.placeOrder rl now o (.success resp)).1 = .ok r →
      r.status = OKXBroker.mapOrderStatus resp.sCode) ∧
    BinanceFuturesBroker.mapOrderStatus "NEW" = .pending ∧
    OKXBroker.mapOrderStatus "0" = .pending := by
  refine ⟨?_, ?_, ?_, ?_, rfl, rfl⟩
  · intro rl now o resp r h
    rcases hc : BaseBroker.checkRateLimit rl now "order" 20 60000 with ⟨ok, rl1⟩
    rw [BinanceFuturesBroker.placeOrder, hc] at h
    cases ok
    · simp at h
    · simp only [Bool.not_true, Bool.false_eq_true, if_false, Except.ok.injEq] at h
      subst h
      rfl
  · intro rl now o resp r h
    rcases hc : BaseBroker.checkRateLimit rl now "order" 20 60000 with ⟨ok, rl1⟩
    rw [DeltaExchangeBroker.placeOrder, hc] at h
    cases ok
    · simp at h
    · by_cases hs : resp.success
      · simp only [hs, Bool.not_true, Bool.false_eq_true, if_false, Except.ok.injEq] at h
        subst h
        rfl
      · simp [hs] at h
  · intro rl now o resp r h
    rcases hc : BaseBroker.checkRateLimit rl now "order" 20 60000 with ⟨ok, rl1⟩
    rw [BybitBroker.placeOrder, hc] at h
    cases ok
    · simp at h
    · by_cases hcode : resp.retCode != 0
      · simp [hcode] at h
      · simp only [hcode, Bool.not_true, Bool.false_eq_true, if_false, Except.ok.injEq] at h
        subst h
        rfl
  · intro rl now o resp r h
    rcases hc : BaseBroker.checkRateLimit rl now "order" 20 60000 with ⟨ok, rl1⟩
    rw [OKXBroker.placeOrder, hc] at h
    cases ok
    · simp at h
    · by_cases hcode : resp.code != "0"
      · simp [hcode] at h
      · simp only [hcode, Bool.not_true, Bool.false_eq_true, if_false, Except.ok.injEq] at h
        subst h
        rfl

/-- C4 witness: the amended theorem applied to the spec's end-to-end
scenario — a market buy of 1 BTCUSDT acknowledged with native status
"NEW" yields a pending result. -/
theorem c4_placeOrder_status_normalization_witness :
    (⟨natRepr 7, "BTCUSDT", jsToLower "BUY", 1, jsNumOr none none,
        BinanceFuturesBroker.mapOrderStatus "NEW", 123, some 0⟩ : TradeResult).status =
      BinanceFuturesBroker.mapOrderStatus "NEW" :=
  c4_placeOrder_status_normalization.1 [] 0 ⟨"BTCUSDT", "buy", "market", 1, none, none, none⟩
    ⟨7, "BTCUSDT", "BUY", 1, none, none, "NEW", 123⟩ _ rfl

/-- C8 counterexample: Delta's `mapOrderStatus` lowercases its input
first, so the undocumented input "FILLED" — which is not one of Delta's
documented native statuses — maps to `filled`, not to the claimed
default `pending`. -/
theorem c8_counterexample_delta_unknown_not_pending :
    DeltaExchangeBroker.mapOrderStatus "FILLED" = .filled ∧
    "FILLED" ∉ ["open", "pending", "filled", "closed", "cancelled", "rejected"] ∧
    OrderStatus.filled ≠ OrderStatus.pending := by
  refine ⟨rfl, by decide, by decide⟩

/-- C8 (amended): every documented native status maps to exactly the
single normalized status of the §4.2 table for all four exchanges; for
Binance-Futures, Bybit and OKX every input outside the documented
vocabulary defaults to `pending` (the match is exact), while Delta
lowercases its input first, so only inputs whose lowercase form is
outside its documented vocabulary default to `pending` (case variants
such as "FILLED" map like their lowercase forms). -/
theorem c8_status_table_and_defaults :
    (DeltaExchangeBroker.mapOrderStatus "open" = .pending ∧
     DeltaExchangeBroker.mapOrderStatus "pending" = .pending ∧
     DeltaExchangeBroker.mapOrderStatus "filled" = .filled ∧
     DeltaExchangeBroker.mapOrderStatus "closed" = .filled ∧
     DeltaExchangeBroker.mapOrderStatus "cancelled" = .cancelled ∧
     DeltaExchangeBroker.mapOrderStatus "rejected" = .rejected) ∧
    (BinanceFuturesBroker.mapOrderStatus "NEW" = .pending ∧
     BinanceFuturesBroker.mapOrderStatus "PARTIALLY_FILLED" = .pending ∧
     BinanceFuturesBroker.mapOrderStatus "FILLED" = .filled ∧
     BinanceFuturesBroker.mapOrderStatus "CANCELED" = .cancelled ∧
     BinanceFuturesBroker.mapOrderStatus "EXPIRED" = .cancelled ∧
     BinanceFuturesBroker.mapOrderStatus "REJECTED" = .rejected) ∧
    (BybitBroker.mapOrderStatus "New" = .pending ∧
     BybitBroker.mapOrderStatus "PartiallyFilled" = .pending ∧
     BybitBroker.mapOrderStatus "Filled" = .filled ∧
     BybitBroker.mapOrderStatus "Cancelled" = .cancelled ∧
     BybitBroker.mapOrderStatus "Rejected" = .cancelled ∧
     BybitBroker.mapOrderStatus "Deactivated" = .rejected) ∧
    (OKXBroker.mapOrderStatus "live" = .pending ∧
     OKXBroker.mapOrderStatus "partially_filled" = .pending ∧
     OKXBroker.mapOrderStatus "filled" = .filled ∧
     OKXBroker.mapOrderStatus "canceled" = .cancelled ∧
     OKXBroker.mapOrderStatus "rejected" = .rejected) ∧
    (∀ s, s ∉ ["NEW", "PARTIALLY_FILLED", "FILLED", "CANCELED", "EXPIRED", "REJECTED"] →
      BinanceFuturesBroker.mapOrderStatus s = .pending) ∧
    (∀ s, s ∉ ["New", "PartiallyFilled", "Filled", "Cancelled", "Rejected", "Deactivated"] →
      BybitBroker.mapOrderStatus s = .pending) ∧
    (∀ s, s ∉ ["live", "partially_filled", "filled", "canceled", "rejected"] →
      OKXBroker.mapOrderStatus s = .pending) ∧
    (∀ s, jsToLower s ∉ ["open", "pending", "filled", "closed", "cancelled", "rejected"] →
      DeltaExchangeBroker.mapOrderStatus s = .pending) := by
  refine ⟨by decide, by decide, by decide, by decide, ?_, ?_, ?_, ?_⟩
  · intro s h
    simp only [List.mem_cons, List.mem_singleton, not_or] at h
    obtain ⟨h1, h2, h3, h4, h5, h6, -⟩ := h
    simp [BinanceFuturesBroker.mapOrderStatus, h1, h2, h3, h4, h5, h6]
  · intro s h
    simp only [List.mem_cons, List.mem_singleton, not_or] at h
    obtain ⟨h1, h2, h3, h4, h5, h6, -⟩ := h
    simp [BybitBroker.mapOrderStatus, h1, h2, h3, h4, h5, h6]
  · intro s h
    simp only [List.mem_cons, List.mem_singleton, not_or] at h
    obtain ⟨h1, h2, h3, h4, h5, -⟩ := h
    simp [OKXBroker.mapOrderStatus, h1, h2, h3, h4, h5]
  · intro s h
    simp only [List.mem_cons, List.mem_singleton, not_or] at h
    obtain ⟨h1, h2, h3, h4, h5, h6, -⟩ := h
    simp [DeltaExchangeBroker.mapOrderStatus, h1, h2, h3, h4, h5, h6]

/-- C8 witness: the amended theorem's default clauses applied to
concrete undocumented statuses. -/
theorem c8_status_table_and_defaults_witness :
    BinanceFuturesBroker.mapOrderStatus "PENDING_CANCEL" = .pending ∧
    BybitBroker.mapOrderStatus "Untriggered" = .pending ∧
    OKXBroker.mapOrderStatus "mmp_canceled" = .pending ∧
    DeltaExchangeBroker.mapOrderStatus "init" = .pending :=
  ⟨c8_status_table_and_defaults.2.2.2.2.1 "PENDING_CANCEL" (by decide),
   c8_status_table_and_defaults.2.2.2.2.2.1 "Untriggered" (by decide),
   c8_status_table_and_defaults.2.2.2.2.2.2.1 "mmp_canceled" (by decide),
   c8_status_table_and_defaults.2.2.2.2.2.2.2 "init" (by decide)⟩

/-- C9: Bybit's `getPositions` computes the `percentage` field as
`unrealisedPnl / positionValue * 100` with no guard on the divisor: a
row that passes the size filter (`size ≠ 0`) but has
`positionValue = 0` is kept and its percentage is a division by zero
(a non-finite JavaScript number, modelled as `none`). -/
theorem c9_bybit_percentage_division_by_zero :
    (⟨"BTCUSDT", "Buy", 1, 100, 100, 5, 0⟩ : BybitBroker.PositionRow).size ≠ 0 ∧
    (⟨"BTCUSDT", "Buy", 1, 100, 100, 5, 0⟩ : BybitBroker.PositionRow).positionValue = 0 ∧
    (BybitBroker.getPositions [] 0
        (.success ⟨0, [⟨"BTCUSDT", "Buy", 1, 100, 100, 5, 0⟩]⟩)).1 =
      Except.ok [⟨"BTCUSDT", "buy", 1, 100, 100, 5, none⟩] ∧
    jsDiv (5 : ℚ) 0 = none := by
  refine ⟨by norm_num, rfl, rfl, rfl⟩
